import Mathlib

/-!
Verification of the Neurospec-MCP request/answer bridge.

The development shallowly embeds two layers of the system:

* the GUI frontend (Vue composables in `core/src/frontend/composables/useAppManager.ts`,
  the MCP handler composable, and the popup component `McpPopup.vue`), translated
  definition by definition from the TypeScript source; and
* the request registry / daemon gateway / dispatcher-side client, whose Rust sources
  (`core/src/rust/daemon`, `core/src/rust/mcp`) are not part of the visible source tree
  and are therefore modelled from the specification text, as marked on each definition.

JavaScript string primitives used by the frontend (`trim`, `split`) are given explicit
executable models over character lists so that all definitions evaluate by `decide`.
-/

namespace NeurospecMCP

/-! ## JavaScript string primitives -/

/-- Model of JavaScript `String.prototype.trim`: strip whitespace from both ends. -/
def jsTrim (s : String) : String :=
  ⟨((s.data.dropWhile Char.isWhitespace).reverse.dropWhile Char.isWhitespace).reverse⟩

/-- Split a character list on a separator character; `[[]]` for the empty list,
matching JavaScript `"".split(sep) = [""]`. -/
def splitCharsOn (sep : Char) : List Char → List (List Char)
  | [] => [[]]
  | c :: rest =>
    if c = sep then [] :: splitCharsOn sep rest
    else
      match splitCharsOn sep rest with
      | [] => [[c]]
      | h :: t => (c :: h) :: t

/-- Model of JavaScript `String.prototype.split` with a one-character separator. -/
def jsSplit (sep : Char) (s : String) : List String :=
  (splitCharsOn sep s.data).map (fun l => ⟨l⟩)

/-! ## Frontend data model

From `useMcpHandler` (the composable embedded in
`core/src/frontend/composables/useEventHandlers.ts`) and `useAppManager.ts`. -/

/-- The MCP request payload delivered to the GUI; `id` is present exactly in
daemon mode (interface `McpRequestData` in the MCP handler composable). -/
structure McpRequestData where
  id : Option String
  message : Option String
  predefined_options : List String
  deriving Repr, DecidableEq

/-- The two popup refs of `useMcpHandler`: `showMcpPopup` and `mcpRequest`. -/
structure PopupState where
  showMcpPopup : Bool
  mcpRequest : Option McpRequestData
  deriving Repr, DecidableEq

/-- The popup state after the daemon response handler clears it:
`showMcpPopup.value = false; mcpRequest.value = null`. -/
def clearedPopup : PopupState := { showMcpPopup := false, mcpRequest := none }

/-- JavaScript truthiness of a nullable string (`if (requestId)`): null and the
empty string are falsy. -/
def jsStrTruthy : Option String → Bool
  | none => false
  | some s => decide (s ≠ "")

/-- Result of a Tauri `invoke` call as observed by the frontend: it either
resolves or rejects (throws). -/
inductive InvokeOutcome
  | ok
  | err
  deriving Repr, DecidableEq

/-- `handleDaemonPopupResponse` (MCP handler composable): invokes
`handle_mcp_popup_response`; on success it clears the popup state, on failure it
rethrows, leaving the state to the caller. Returns the new state and whether the
function threw. -/
def handleDaemonPopupResponse (s : PopupState) (o : InvokeOutcome) : PopupState × Bool :=
  match o with
  | .ok => (clearedPopup, false)
  | .err => (s, true)

/-- One image object of the emitted response, as the object literal built in
`McpPopup.handleSubmit`: key `data` holds `imageData.split(',')[1]` (absent when
the data URL has no comma), `media_type` is the constant `"image/png"`, and
`filename` is null. The association list is the serialized wire form. -/
def buildImage (imageData : String) : List (String × Option String) :=
  [("data", (jsSplit ',' imageData).get? 1),
   ("media_type", some "image/png"),
   ("filename", none)]

/-- The media type a data URL itself declares: the piece between `data:` and the
first `;`. This is the "media-type tag" of the attachment in the words of the
spec; it is used only to state the claim about attachment serialization, not by
any code of the repository. -/
def dataUrlMediaType (s : String) : String :=
  (jsSplit ';' ((jsSplit ':' s).getD 1 "")).getD 0 ""

/-- The structured response object built by the popup (`McpPopup.handleSubmit` /
`handleContinue`, and the synthetic cancel object in `useAppManager.ts`). The
metadata timestamp is not modelled. -/
structure PopupResponse where
  user_input : Option String
  selected_options : List String
  images : List (List (String × Option String))
  request_id : Option String
  source : String
  deriving Repr, DecidableEq

/-- The externally observable calls the frontend handlers make. `dismissRequest`
stands for a dedicated cancel/dismiss operation towards the registry (the
operation the spec calls `dismiss(id)` forwarding to `Registry.cancel`); the
frontend source defines no such invoke, so no handler ever emits it. -/
inductive FrontendCommand
  | popupResponse (requestId : String) (response : PopupResponse)
  | sendMcpResponse (response : PopupResponse)
  | sendMcpCancelled
  | exitApp
  | dismissRequest (requestId : String)
  deriving Repr, DecidableEq

/-- Output of a frontend handler: the popup state it leaves behind, the invokes
it issued, and the messages it showed to the human (via the message instance). -/
structure HandlerOutput where
  state : PopupState
  commands : List FrontendCommand
  userMessages : List String
  deriving Repr, DecidableEq

/-- The memory-suggestion hint `useAppManager.ts` shows via `msg.info`. -/
def memoryHintMsg (cnt : Nat) : String :=
  s!"检测到 {cnt} 条可记忆内容，点击记忆管理查看"

/-- `handleMcpResponseWithMemoryAnalysis` (`useAppManager.ts`): shows the memory
hint when the analysis found suggestions, then branches on the request id. In
daemon mode it calls `handleDaemonPopupResponse`; if that throws it clears the
popup state itself. In legacy mode it sends the response and exits the app. -/
def handleMcpResponseWithMemoryAnalysis (s : PopupState) (resp : PopupResponse)
    (suggestionCount : Nat) (o : InvokeOutcome) : HandlerOutput :=
  let msgs := if suggestionCount > 0 then [memoryHintMsg suggestionCount] else []
  let rid := s.mcpRequest.bind (fun r => r.id)
  if jsStrTruthy rid then
    let ridS := rid.getD ""
    let res := handleDaemonPopupResponse s o
    if res.2 then
      { state := clearedPopup, commands := [.popupResponse ridS resp], userMessages := msgs }
    else
      { state := res.1, commands := [.popupResponse ridS resp], userMessages := msgs }
  else
    match o with
    | .ok => { state := s, commands := [.sendMcpResponse resp, .exitApp], userMessages := msgs }
    | .err => { state := s, commands := [.sendMcpResponse resp], userMessages := msgs }

/-- The synthetic response `handleMcpCancelWithModeCheck` builds when the human
cancels in daemon mode (`useAppManager.ts`): a normal answer object whose text is
the fixed string 用户取消了操作 and whose metadata source is `popup_cancel`. -/
def cancelResponse (rid : String) : PopupResponse :=
  { user_input := some "用户取消了操作", selected_options := [], images := [],
    request_id := some rid, source := "popup_cancel" }

/-- `handleMcpCancelWithModeCheck` (`useAppManager.ts`): in daemon mode it sends
the synthetic cancel answer through `handleDaemonPopupResponse` (clearing the
popup state itself if that throws); in legacy mode it sends the string
`CANCELLED` and exits the app. -/
def handleMcpCancelWithModeCheck (s : PopupState) (o : InvokeOutcome) : HandlerOutput :=
  let rid := s.mcpRequest.bind (fun r => r.id)
  if jsStrTruthy rid then
    let ridS := rid.getD ""
    let res := handleDaemonPopupResponse s o
    if res.2 then
      { state := clearedPopup, commands := [.popupResponse ridS (cancelResponse ridS)],
        userMessages := [] }
    else
      { state := res.1, commands := [.popupResponse ridS (cancelResponse ridS)],
        userMessages := [] }
  else
    match o with
    | .ok => { state := s, commands := [.sendMcpCancelled, .exitApp], userMessages := [] }
    | .err => { state := s, commands := [.sendMcpCancelled], userMessages := [] }

/-! ## The popup form (`McpPopup.vue`, source file part_010) -/

/-- The three reactive inputs of the popup form. -/
structure SubmitForm where
  userInput : String
  selectedOptions : List String
  draggedImages : List String
  deriving Repr, DecidableEq

/-- `hasOptions` computed property: `(request?.predefined_options?.length ?? 0) > 0`. -/
def hasOptions (request : Option McpRequestData) : Bool :=
  match request with
  | some r => decide (0 < r.predefined_options.length)
  | none => false

/-- `canSubmit` computed property of `McpPopup.vue`. -/
def canSubmit (request : Option McpRequestData) (f : SubmitForm) : Bool :=
  if hasOptions request then
    decide (0 < f.selectedOptions.length) || decide (0 < (jsTrim f.userInput).length)
      || decide (0 < f.draggedImages.length)
  else
    decide (0 < (jsTrim f.userInput).length) || decide (0 < f.draggedImages.length)

/-- `props.request?.id || null`: a missing or empty request id collapses to null. -/
def requestIdOrNull (request : Option McpRequestData) : Option String :=
  match request.bind (fun r => r.id) with
  | some "" => none
  | x => x

/-- The body of `McpPopup.handleSubmit`: builds the structured response
(`user_input` is the trimmed text or null, images via `buildImage`), then, if no
content field is non-empty, replaces `user_input` with the default 用户确认继续. -/
def buildSubmitResponse (request : Option McpRequestData) (f : SubmitForm) : PopupResponse :=
  let trimmed := jsTrim f.userInput
  let base : PopupResponse :=
    { user_input := if trimmed = "" then none else some trimmed,
      selected_options := f.selectedOptions,
      images := f.draggedImages.map buildImage,
      request_id := requestIdOrNull request,
      source := "popup" }
  if base.user_input.isNone && base.selected_options.isEmpty && base.images.isEmpty then
    { base with user_input := some "用户确认继续" }
  else base

/-- `McpPopup.handleSubmit`: guarded by `canSubmit` and the `submitting` flag;
when it proceeds it emits the built response to the parent handler. -/
def handleSubmit (request : Option McpRequestData) (submitting : Bool) (f : SubmitForm) :
    Option PopupResponse :=
  if !canSubmit request f || submitting then none
  else some (buildSubmitResponse request f)

/-! ## The interactive surface as a state machine

`setupDaemonPopupListener` (MCP handler composable) reacts to `mcp-popup-request`
events; the popup is rendered only while `showMcpPopup` is set and a request is
held (`App.vue`), and a submission flows through `handleSubmit` into
`handleMcpResponseWithMemoryAnalysis`. -/

/-- The `mcp-popup-request` listener body: store the request and show the popup;
the previously held state is discarded wholesale. -/
def onPopupRequest (_s : PopupState) (req : McpRequestData) : PopupState :=
  { showMcpPopup := true, mcpRequest := some req }

/-- External events driving the interactive surface. -/
inductive SurfaceEvent
  | arrive (req : McpRequestData)
  | submit (f : SubmitForm) (suggestionCount : Nat) (o : InvokeOutcome)
  deriving Repr, DecidableEq

/-- One step of the interactive surface: a new popup request, or a human
submission of the currently displayed popup. -/
def surfaceStep (s : PopupState) : SurfaceEvent → PopupState × List FrontendCommand
  | .arrive req => (onPopupRequest s req, [])
  | .submit f cnt o =>
    if s.showMcpPopup && s.mcpRequest.isSome then
      match handleSubmit s.mcpRequest false f with
      | none => (s, [])
      | some resp =>
        let out := handleMcpResponseWithMemoryAnalysis s resp cnt o
        (out.state, out.commands)
    else (s, [])

/-- Run the interactive surface over a list of events, collecting all commands. -/
def surfaceRun : PopupState → List SurfaceEvent → PopupState × List FrontendCommand
  | s, [] => (s, [])
  | s, e :: rest =>
    let step := surfaceStep s e
    let next := surfaceRun step.1 rest
    (next.1, step.2 ++ next.2)

/-- The request ids to which answers were submitted (the
`handle_mcp_popup_response` invokes among the emitted commands). -/
def answeredIds (cs : List FrontendCommand) : List String :=
  cs.filterMap (fun c =>
    match c with
    | .popupResponse rid _ => some rid
    | _ => none)

/-! ## Request Registry, Daemon Gateway and Dispatcher-Side Client

The Rust sources of these components (`core/src/rust/daemon`, `core/src/rust/mcp`)
are not part of the visible source tree; the definitions below are modelled from
the specification text (sections 3, 4.1, 4.2, 4.4, 6 and 7). -/

/-- Association-list lookup by request id. -/
def alookup {α : Type} (id : String) : List (String × α) → Option α
  | [] => none
  | (k, v) :: rest => if k = id then some v else alookup id rest

/-- Remove every binding of a request id. -/
def aremove {α : Type} (id : String) (l : List (String × α)) : List (String × α) :=
  l.filter (fun p => decide (p.1 ≠ id))

/-- The ids bound in an association list. -/
def keys {α : Type} (l : List (String × α)) : List String := l.map Prod.fst

/-- Modelled from the spec: the final value a completion slot is fulfilled with —
an Answer (kept abstract as its serialized form) or a Cancellation with a reason. -/
inductive Outcome
  | answered (a : String)
  | cancelled (reason : String)
  deriving Repr, DecidableEq

/-- Modelled from the spec: the metadata of a `PendingRequest` (creation time and
optional deadline; the payload is irrelevant to the claims below). -/
structure RegEntry where
  createdAt : Nat
  deadline : Option Nat
  deriving Repr, DecidableEq

/-- Modelled from the spec: the Request Registry. `pending` are the outstanding
entries (unfulfilled completion slots); `results` are the fulfilled slots, i.e.
the outcome each gateway waiter observes. Entries move from `pending` to
`results` exactly when completed or cancelled. -/
structure Registry where
  pending : List (String × RegEntry)
  results : List (String × Outcome)
  deriving Repr, DecidableEq

/-- Modelled from the spec: errors of `complete`/`cancel`
(`NotFound | AlreadyCompleted`). -/
inductive CompleteError
  | notFound
  | alreadyCompleted
  deriving Repr, DecidableEq

/-- Modelled from the spec: `register`. The gateway generates fresh ids, and a
dead id is never reused or re-inserted, so registration with an id that is
pending or already fulfilled is refused (second component false). -/
def Registry.registerOp (r : Registry) (id : String) (e : RegEntry) : Registry × Bool :=
  if id ∈ keys r.pending ∨ id ∈ keys r.results then (r, false)
  else ({ pending := (id, e) :: r.pending, results := r.results }, true)

/-- Modelled from the spec: `complete(id, Answer)`. A pending entry is fulfilled
with the answer and removed; an id whose slot was already fulfilled yields
`AlreadyCompleted`, an unknown id `NotFound`. -/
def Registry.complete (r : Registry) (id : String) (a : String) :
    Registry × Except CompleteError Unit :=
  match alookup id r.pending with
  | some _ =>
    ({ pending := aremove id r.pending, results := (id, .answered a) :: r.results },
     .ok ())
  | none =>
    (r, .error (if (alookup id r.results).isSome then .alreadyCompleted else .notFound))

/-- Modelled from the spec: `cancel(id, reason)`. -/
def Registry.cancel (r : Registry) (id : String) (reason : String) :
    Registry × Except CompleteError Unit :=
  match alookup id r.pending with
  | some _ =>
    ({ pending := aremove id r.pending, results := (id, .cancelled reason) :: r.results },
     .ok ())
  | none => (r, .error .notFound)

/-- An entry is expired at `now` when its deadline has passed. -/
def RegEntry.isExpired (e : RegEntry) (now : Nat) : Bool :=
  match e.deadline with
  | some d => decide (d < now)
  | none => false

/-- Modelled from the spec: `expire_older_than(now)`, the background expiry
sweep — every pending entry past its deadline is cancelled with reason
`expired` and removed. -/
def Registry.expireOlderThan (r : Registry) (now : Nat) : Registry :=
  { pending := r.pending.filter (fun p => !(p.2.isExpired now)),
    results := (r.pending.filter (fun p => p.2.isExpired now)).map
        (fun p => (p.1, Outcome.cancelled "expired")) ++ r.results }

/-- Modelled from the spec: the wire form of a gateway reply
(`{status:"answered", answer:...}` or `{status:"cancelled", reason:...}`). -/
def outcomeWire : Outcome → List (String × String)
  | .answered a => [("status", "answered"), ("answer", a)]
  | .cancelled reason => [("status", "cancelled"), ("reason", reason)]

/-- The reply the suspended gateway connection for `id` delivers to its caller,
if the slot has been fulfilled. -/
def replyFor (r : Registry) (id : String) : Option (List (String × String)) :=
  (alookup id r.results).map outcomeWire

/-- The operations that reach the registry from its three execution contexts. -/
inductive RegOp
  | register (id : String) (e : RegEntry)
  | complete (id : String) (a : String)
  | cancel (id : String) (reason : String)
  | expire (now : Nat)
  deriving Repr, DecidableEq

/-- Apply one registry operation (dropping the result code). -/
def Registry.applyOp (r : Registry) : RegOp → Registry
  | .register id e => (r.registerOp id e).1
  | .complete id a => (r.complete id a).1
  | .cancel id reason => (r.cancel id reason).1
  | .expire now => r.expireOlderThan now

/-- Apply a sequence of registry operations. -/
def Registry.applyOps (r : Registry) (ops : List RegOp) : Registry :=
  ops.foldl Registry.applyOp r

/-- Registry well-formedness: every id is bound at most once across the pending
table and the fulfilled slots (exactly one `PendingRequest` per id, and a dead
id is never re-inserted). -/
def Registry.Inv (r : Registry) : Prop :=
  (keys r.pending ++ keys r.results).Nodup

instance (r : Registry) : Decidable r.Inv := by
  unfold Registry.Inv
  infer_instance

/-! ## Gateway event traces (spec section 4.2) -/

/-- Observable events in the life of requests at the gateway: the registry entry
is created, the display notification is published, an answer submission is
processed (successfully or not). -/
inductive GEvent
  | registered (id : String)
  | notified (id : String)
  | submitted (id : String) (success : Bool)
  deriving Repr, DecidableEq

/-- Whether an event occurs in a trace. -/
def hasEv (e : GEvent) : List GEvent → Bool
  | [] => false
  | x :: tr => if x = e then true else hasEv e tr

/-- Scanner for `ordOK`: `seen1` records whether `e1` has occurred strictly
earlier; every occurrence of `e2` must find `seen1` set. -/
def ordOKAux (e1 e2 : GEvent) : Bool → List GEvent → Bool
  | _, [] => true
  | seen1, e :: tr =>
    (if e = e2 then seen1 else true) && ordOKAux e1 e2 (seen1 || decide (e = e1)) tr

/-- Every occurrence of `e2` in the trace is strictly preceded by an occurrence
of `e1`. -/
def ordOK (e1 e2 : GEvent) (tr : List GEvent) : Bool := ordOKAux e1 e2 false tr

/-- Modelled from the spec: the gateway process state — the registry it owns plus
the chronological event trace. -/
structure SysState where
  reg : Registry
  trace : List GEvent
  deriving Repr, DecidableEq

/-- Modelled from the spec: the stimuli the gateway process reacts to. An inbound
call registers then notifies (section 4.2 steps 1–2, strictly in that order); a
bridge submission forwards to `Registry.complete`; the sweep runs
`expire_older_than`. -/
inductive SysOp
  | inbound (id : String) (e : RegEntry)
  | submit (id : String) (a : String)
  | sweep (now : Nat)
  deriving Repr, DecidableEq

/-- Modelled from the spec: one gateway step. The registry entry is created
before the display notification is published; a rejected (dead-id) registration
publishes nothing. -/
def sysStep (s : SysState) : SysOp → SysState
  | .inbound id e =>
    let res := s.reg.registerOp id e
    if res.2 then { reg := res.1, trace := s.trace ++ [.registered id, .notified id] }
    else { reg := res.1, trace := s.trace }
  | .submit id a =>
    let res := s.reg.complete id a
    { reg := res.1,
      trace := s.trace ++
        [.submitted id (match res.2 with | .ok _ => true | .error _ => false)] }
  | .sweep now => { reg := s.reg.expireOlderThan now, trace := s.trace }

/-- The gateway starts with an empty registry and an empty trace. -/
def sysInit : SysState := { reg := { pending := [], results := [] }, trace := [] }

/-- Run the gateway over a sequence of stimuli. -/
def sysRun (ops : List SysOp) : SysState := ops.foldl sysStep sysInit

/-- The causal-ordering invariant of the gateway: for every id, the registry
entry is created strictly before the notification is published, a successful
submission is strictly preceded by the notification, and a pending entry has
already been notified. -/
def SysInv (s : SysState) : Prop :=
  ∀ id : String,
    ordOK (.registered id) (.notified id) s.trace = true ∧
    ordOK (.notified id) (.submitted id true) s.trace = true ∧
    (alookup id s.reg.pending ≠ none → hasEv (.notified id) s.trace = true)

/-! ## Dispatcher-Side Client (spec sections 4.4, 6 and 7) -/

/-- Modelled from the spec: the reply a reachable gateway eventually produces for
the dispatcher-side client. -/
inductive GatewayReply
  | answeredR (a : String)
  | cancelledR (reason : String)
  deriving Repr, DecidableEq

/-- Modelled from the spec: the tool-call result the dispatcher-side client
returns to the protocol layer: `{Answer, Cancelled, BridgeUnavailable}`. -/
inductive ToolOutcome
  | answer (a : String)
  | cancelledOutcome (reason : String)
  | bridgeUnavailable
  deriving Repr, DecidableEq

/-- Modelled from the spec: the dispatcher-side client result mapping. An
unreachable gateway (`none`: connection failure) becomes the distinct
`bridgeUnavailable` error; an answer becomes a successful result; a cancellation
becomes a structured cancelled outcome. The mapping is a total function, so
every call returns, with no hang. -/
def dispatchToolCall (conn : Option GatewayReply) : ToolOutcome :=
  match conn with
  | none => .bridgeUnavailable
  | some (.answeredR a) => .answer a
  | some (.cancelledR reason) => .cancelledOutcome reason

/-! ## Association-list toolkit -/

theorem alookup_eq_none {α : Type} (id : String) (l : List (String × α)) :
    alookup id l = none ↔ id ∉ keys l := by
  induction l with
  | nil => simp [alookup, keys]
  | cons p rest ih =>
    obtain ⟨k, v⟩ := p
    by_cases h : k = id
    · subst h
      simp [alookup, keys]
    · simp only [alookup, if_neg h, keys, List.map_cons, List.mem_cons]
      rw [show (rest.map Prod.fst) = keys rest from rfl, ih]
      constructor
      · intro hn hor
        rcases hor with he | hm
        · exact h he.symm
        · exact hn hm
      · intro hn hm
        exact hn (Or.inr hm)

theorem alookup_isSome {α : Type} (id : String) (l : List (String × α)) :
    (alookup id l).isSome = true ↔ id ∈ keys l := by
  rw [Option.isSome_iff_ne_none]
  exact not_iff_comm.mp (Iff.symm (alookup_eq_none id l))

theorem mem_keys_of_alookup {α : Type} {id : String} {l : List (String × α)} {v : α}
    (h : alookup id l = some v) : id ∈ keys l := by
  rw [← alookup_isSome, h]
  rfl

theorem alookup_mem {α : Type} {id : String} {l : List (String × α)} {v : α}
    (h : alookup id l = some v) : (id, v) ∈ l := by
  induction l with
  | nil => simp [alookup] at h
  | cons p rest ih =>
    obtain ⟨k, w⟩ := p
    by_cases hk : k = id
    · subst hk
      simp [alookup] at h
      simp [h]
    · simp [alookup, hk] at h
      simp [ih h]

theorem alookup_append_left {α : Type} {id : String} {l₁ : List (String × α)} {v : α}
    (l₂ : List (String × α)) (h : alookup id l₁ = some v) :
    alookup id (l₁ ++ l₂) = some v := by
  induction l₁ with
  | nil => simp [alookup] at h
  | cons p rest ih =>
    obtain ⟨k, w⟩ := p
    by_cases hk : k = id
    · subst hk
      simp [alookup] at h ⊢
      exact h
    · simp [alookup, hk] at h ⊢
      exact ih h

theorem alookup_append_right {α : Type} {id : String} {l₁ : List (String × α)}
    (l₂ : List (String × α)) (h : alookup id l₁ = none) :
    alookup id (l₁ ++ l₂) = alookup id l₂ := by
  induction l₁ with
  | nil => simp
  | cons p rest ih =>
    obtain ⟨k, w⟩ := p
    by_cases hk : k = id
    · subst hk
      simp [alookup] at h
    · simp [alookup, hk] at h ⊢
      exact ih h

theorem keys_cons {α : Type} (k : String) (v : α) (l : List (String × α)) :
    keys ((k, v) :: l) = k :: keys l := rfl

theorem keys_append {α : Type} (l₁ l₂ : List (String × α)) :
    keys (l₁ ++ l₂) = keys l₁ ++ keys l₂ := by
  simp [keys]

theorem keys_filter_fst {α : Type} (q : String → Bool) (l : List (String × α)) :
    keys (l.filter (fun p => q p.1)) = (keys l).filter q := by
  induction l with
  | nil => simp [keys]
  | cons p rest ih =>
    obtain ⟨k, v⟩ := p
    by_cases h : q k <;> simp [keys, List.filter_cons, h] <;> exact ih

theorem keys_map_fst_pair {α β : Type} (c : β) (l : List (String × α)) :
    keys (l.map (fun p => (p.1, c))) = keys l := by
  simp [keys, List.map_map]

theorem keys_filter_subset {α : Type} (q : String × α → Bool) (l : List (String × α)) :
    keys (l.filter q) ⊆ keys l :=
  ((List.filter_sublist l).map Prod.fst).subset

theorem alookup_filter_none {α : Type} {id : String} {l : List (String × α)} {v : α}
    (q : String × α → Bool) (hnd : (keys l).Nodup) (h : alookup id l = some v)
    (hq : q (id, v) = false) : alookup id (l.filter q) = none := by
  induction l with
  | nil => simp [alookup] at h
  | cons p rest ih =>
    obtain ⟨k, w⟩ := p
    have hnd' : (keys rest).Nodup := (List.nodup_cons.mp hnd).2
    by_cases hk : k = id
    · subst hk
      simp [alookup] at h
      subst h
      rw [List.filter_cons]
      simp [hq]
      rw [alookup_eq_none]
      intro hmem
      exact (List.nodup_cons.mp hnd).1 (keys_filter_subset q rest hmem)
    · simp [alookup, hk] at h
      rw [List.filter_cons]
      by_cases hqk : q (k, w) = true
      · simp [hqk, alookup, hk]
        exact ih hnd' h
      · simp [hqk]
        exact ih hnd' h

theorem alookup_filter_some {α : Type} {id : String} {l : List (String × α)} {v : α}
    (q : String × α → Bool) (h : alookup id l = some v)
    (hq : q (id, v) = true) : alookup id (l.filter q) = some v := by
  induction l with
  | nil => simp [alookup] at h
  | cons p rest ih =>
    obtain ⟨k, w⟩ := p
    by_cases hk : k = id
    · subst hk
      simp [alookup] at h
      subst h
      rw [List.filter_cons]
      simp [hq, alookup]
    · simp [alookup, hk] at h
      rw [List.filter_cons]
      by_cases hqk : q (k, w) = true
      · simp [hqk, alookup, hk]
        exact ih h
      · simp [hqk]
        exact ih h

theorem alookup_map_const {α β : Type} (id : String) (c : β) (l : List (String × α)) :
    alookup id (l.map (fun p => (p.1, c))) = (alookup id l).map (fun _ => c) := by
  induction l with
  | nil => simp [alookup]
  | cons p rest ih =>
    obtain ⟨k, v⟩ := p
    by_cases hk : k = id <;> simp [alookup, hk, ih]

/-! ## Registry invariant preservation and stability -/

theorem inv_parts {r : Registry} (h : r.Inv) :
    (keys r.pending).Nodup ∧ (keys r.results).Nodup ∧
      (keys r.pending).Disjoint (keys r.results) :=
  List.nodup_append.mp h

theorem inv_registerOp (r : Registry) (id : String) (e : RegEntry) (h : r.Inv) :
    (r.registerOp id e).1.Inv := by
  unfold Registry.registerOp
  by_cases hc : id ∈ keys r.pending ∨ id ∈ keys r.results
  · rw [if_pos hc]
    exact h
  · rw [if_neg hc]
    obtain ⟨h1', h2'⟩ := not_or.mp hc
    unfold Registry.Inv at h ⊢
    rw [keys_cons, List.cons_append, List.nodup_cons]
    constructor
    · intro hmem
      rcases List.mem_append.mp hmem with hm | hm
      · exact h1' hm
      · exact h2' hm
    · exact h

theorem keys_aremove {α : Type} (id : String) (l : List (String × α)) :
    keys (aremove id l) = (keys l).filter (fun k => decide (k ≠ id)) := by
  unfold aremove
  exact keys_filter_fst (fun k => decide (k ≠ id)) l

theorem inv_complete (r : Registry) (id : String) (a : String) (h : r.Inv) :
    (r.complete id a).1.Inv := by
  unfold Registry.complete
  cases hl : alookup id r.pending with
  | none => simpa using h
  | some e =>
    simp only []
    obtain ⟨hp, hr, hd⟩ := inv_parts h
    unfold Registry.Inv
    rw [keys_aremove, keys_cons, List.nodup_append]
    refine ⟨hp.filter _, ?_, ?_⟩
    · rw [List.nodup_cons]
      exact ⟨fun hm => hd (mem_keys_of_alookup hl) hm, hr⟩
    · intro x hx
      have hx' := List.mem_filter.mp hx
      have hxid : x ≠ id := by simpa using hx'.2
      rw [List.mem_cons]
      intro hc
      rcases hc with hc | hc
      · exact hxid hc
      · exact hd hx'.1 hc

theorem inv_cancel (r : Registry) (id : String) (reason : String) (h : r.Inv) :
    (r.cancel id reason).1.Inv := by
  unfold Registry.cancel
  cases hl : alookup id r.pending with
  | none => simpa using h
  | some e =>
    simp only []
    obtain ⟨hp, hr, hd⟩ := inv_parts h
    unfold Registry.Inv
    rw [keys_aremove, keys_cons, List.nodup_append]
    refine ⟨hp.filter _, ?_, ?_⟩
    · rw [List.nodup_cons]
      exact ⟨fun hm => hd (mem_keys_of_alookup hl) hm, hr⟩
    · intro x hx
      have hx' := List.mem_filter.mp hx
      have hxid : x ≠ id := by simpa using hx'.2
      rw [List.mem_cons]
      intro hc
      rcases hc with hc | hc
      · exact hxid hc
      · exact hd hx'.1 hc

theorem inv_expire (r : Registry) (now : Nat) (h : r.Inv) :
    (r.expireOlderThan now).Inv := by
  unfold Registry.expireOlderThan Registry.Inv
  simp only []
  rw [keys_append, keys_map_fst_pair]
  have hperm :
      List.Perm
        (keys (r.pending.filter (fun p => !(p.2.isExpired now))) ++
          keys (r.pending.filter (fun p => p.2.isExpired now)))
        (keys r.pending) := by
    have hp := List.filter_append_perm (fun p : String × RegEntry => !(p.2.isExpired now))
      r.pending
    have hp' :
        List.Perm
          (r.pending.filter (fun p => !(p.2.isExpired now)) ++
            r.pending.filter (fun p => p.2.isExpired now))
          r.pending := by
      simpa [Bool.not_not] using hp
    have := hp'.map Prod.fst
    simpa [keys] using this
  have hperm2 :
      List.Perm
        (keys (r.pending.filter (fun p => !(p.2.isExpired now))) ++
          (keys (r.pending.filter (fun p => p.2.isExpired now)) ++ keys r.results))
        (keys r.pending ++ keys r.results) := by
    rw [← List.append_assoc]
    exact hperm.append_right (keys r.results)
  exact (List.Perm.nodup_iff hperm2).mpr h

theorem inv_applyOp (r : Registry) (op : RegOp) (h : r.Inv) : (r.applyOp op).Inv := by
  cases op with
  | register id e => exact inv_registerOp r id e h
  | complete id a => exact inv_complete r id a h
  | cancel id reason => exact inv_cancel r id reason h
  | expire now => exact inv_expire r now h

theorem results_stable_op (r : Registry) (hInv : r.Inv) (id : String) (o : Outcome)
    (h : alookup id r.results = some o) (op : RegOp) :
    alookup id (r.applyOp op).results = some o := by
  have hd := (inv_parts hInv).2.2
  have hidr : id ∈ keys r.results := mem_keys_of_alookup h
  have hidp : id ∉ keys r.pending := fun hm => hd hm hidr
  cases op with
  | register id' e =>
    simp only [Registry.applyOp]
    unfold Registry.registerOp
    by_cases hc : id' ∈ keys r.pending ∨ id' ∈ keys r.results
    · rw [if_pos hc]
      exact h
    · rw [if_neg hc]
      exact h
  | complete id' a =>
    simp only [Registry.applyOp]
    unfold Registry.complete
    cases hl : alookup id' r.pending with
    | none => simpa using h
    | some e =>
      simp only [alookup]
      have hne : ¬id' = id := by
        intro hc
        subst hc
        exact hidp (mem_keys_of_alookup hl)
      rw [if_neg hne]
      exact h
  | cancel id' reason =>
    simp only [Registry.applyOp]
    unfold Registry.cancel
    cases hl : alookup id' r.pending with
    | none => simpa using h
    | some e =>
      simp only [alookup]
      have hne : ¬id' = id := by
        intro hc
        subst hc
        exact hidp (mem_keys_of_alookup hl)
      rw [if_neg hne]
      exact h
  | expire now =>
    simp only [Registry.applyOp]
    unfold Registry.expireOlderThan
    simp only []
    have hnone :
        alookup id ((r.pending.filter (fun p => p.2.isExpired now)).map
          (fun p => (p.1, Outcome.cancelled "expired"))) = none := by
      rw [alookup_eq_none, keys_map_fst_pair]
      intro hm
      exact hidp (keys_filter_subset _ r.pending hm)
    rw [alookup_append_right r.results hnone]
    exact h

theorem results_stable_ops (ops : List RegOp) (r : Registry) (hInv : r.Inv)
    (id : String) (o : Outcome) (h : alookup id r.results = some o) :
    (r.applyOps ops).Inv ∧ alookup id (r.applyOps ops).results = some o := by
  induction ops generalizing r with
  | nil => exact ⟨hInv, h⟩
  | cons op rest ih =>
    have h1 := inv_applyOp r op hInv
    have h2 := results_stable_op r hInv id o h op
    exact ih (r.applyOp op) h1 h2

theorem complete_after_result (r : Registry) (hInv : r.Inv) {id : String} {o : Outcome}
    (h : alookup id r.results = some o) (a : String) :
    (r.complete id a).2 = Except.error CompleteError.alreadyCompleted ∧
      (r.complete id a).1 = r := by
  have hd := (inv_parts hInv).2.2
  have hidp : alookup id r.pending = none := by
    rw [alookup_eq_none]
    exact fun hm => hd hm (mem_keys_of_alookup h)
  unfold Registry.complete
  rw [hidp]
  simp [h]

theorem cancel_after_result (r : Registry) (hInv : r.Inv) {id : String} {o : Outcome}
    (h : alookup id r.results = some o) (reason : String) :
    (r.cancel id reason).2 = Except.error CompleteError.notFound ∧
      (r.cancel id reason).1 = r := by
  have hd := (inv_parts hInv).2.2
  have hidp : alookup id r.pending = none := by
    rw [alookup_eq_none]
    exact fun hm => hd hm (mem_keys_of_alookup h)
  unfold Registry.cancel
  rw [hidp]
  exact ⟨rfl, rfl⟩

/-! ## Gateway trace lemmas -/

theorem hasEv_append (e : GEvent) (l₁ l₂ : List GEvent) :
    hasEv e (l₁ ++ l₂) = (hasEv e l₁ || hasEv e l₂) := by
  induction l₁ with
  | nil => simp [hasEv]
  | cons x tr ih => by_cases hx : x = e <;> simp [hasEv, hx, ih]

theorem ordOKAux_append (e1 e2 : GEvent) (tr tr' : List GEvent) (b : Bool) :
    ordOKAux e1 e2 b (tr ++ tr') =
      (ordOKAux e1 e2 b tr && ordOKAux e1 e2 (b || hasEv e1 tr) tr') := by
  induction tr generalizing b with
  | nil => simp [ordOKAux, hasEv]
  | cons x tr ih =>
    rw [List.cons_append]
    simp only [ordOKAux, hasEv, List.append_eq]
    rw [ih]
    by_cases hx : x = e1 <;> by_cases hx2 : x = e2 <;>
      simp [hx, hx2, Bool.or_assoc, Bool.and_assoc]

theorem ordOK_append (e1 e2 : GEvent) (tr tr' : List GEvent) :
    ordOK e1 e2 (tr ++ tr') = (ordOK e1 e2 tr && ordOKAux e1 e2 (hasEv e1 tr) tr') := by
  simp [ordOK, ordOKAux_append]

theorem alookup_filter_none_of_none {α : Type} {id : String} {l : List (String × α)}
    (q : String × α → Bool) (h : alookup id l = none) :
    alookup id (l.filter q) = none := by
  rw [alookup_eq_none] at h ⊢
  exact fun hm => h (keys_filter_subset q l hm)

theorem sysInv_init : SysInv sysInit := by
  intro id
  refine ⟨rfl, rfl, ?_⟩
  intro h
  exact absurd rfl h

theorem sysStep_inbound_reject (s : SysState) (id : String) (e : RegEntry)
    (hm : id ∈ keys s.reg.pending ∨ id ∈ keys s.reg.results) :
    sysStep s (.inbound id e) = { reg := s.reg, trace := s.trace } := by
  simp only [sysStep]
  rw [show s.reg.registerOp id e = (s.reg, false) from by
    unfold Registry.registerOp
    rw [if_pos hm]]
  simp

theorem sysStep_inbound_accept (s : SysState) (id : String) (e : RegEntry)
    (hm : ¬(id ∈ keys s.reg.pending ∨ id ∈ keys s.reg.results)) :
    sysStep s (.inbound id e) =
      { reg := { pending := (id, e) :: s.reg.pending, results := s.reg.results },
        trace := s.trace ++ [.registered id, .notified id] } := by
  simp only [sysStep]
  rw [show s.reg.registerOp id e =
      ({ pending := (id, e) :: s.reg.pending, results := s.reg.results }, true) from by
    unfold Registry.registerOp
    rw [if_neg hm]]
  simp

theorem sysStep_submit_miss (s : SysState) (id : String) (a : String)
    (hl : alookup id s.reg.pending = none) :
    sysStep s (.submit id a) =
      { reg := s.reg, trace := s.trace ++ [.submitted id false] } := by
  simp only [sysStep]
  rw [show s.reg.complete id a =
      (s.reg, Except.error
        (if (alookup id s.reg.results).isSome then CompleteError.alreadyCompleted
          else CompleteError.notFound)) from by
    unfold Registry.complete
    rw [hl]]

theorem sysStep_submit_hit (s : SysState) (id : String) (a : String) (e : RegEntry)
    (hl : alookup id s.reg.pending = some e) :
    sysStep s (.submit id a) =
      { reg := { pending := aremove id s.reg.pending,
                 results := (id, Outcome.answered a) :: s.reg.results },
        trace := s.trace ++ [.submitted id true] } := by
  simp only [sysStep]
  rw [show s.reg.complete id a =
      ({ pending := aremove id s.reg.pending,
         results := (id, Outcome.answered a) :: s.reg.results }, Except.ok ()) from by
    unfold Registry.complete
    rw [hl]]

theorem sysInv_step (s : SysState) (h : SysInv s) (op : SysOp) : SysInv (sysStep s op) := by
  cases op with
  | inbound id' e =>
    by_cases hm : id' ∈ keys s.reg.pending ∨ id' ∈ keys s.reg.results
    · rw [sysStep_inbound_reject s id' e hm]
      intro id
      exact h id
    · rw [sysStep_inbound_accept s id' e hm]
      intro id
      obtain ⟨h1, h2, h3⟩ := h id
      refine ⟨?_, ?_, ?_⟩
      · rw [ordOK_append, h1, Bool.true_and]
        by_cases hid : id' = id <;>
          simp [ordOKAux, hid]
      · rw [ordOK_append, h2, Bool.true_and]
        simp [ordOKAux]
      · intro hp
        rw [hasEv_append]
        by_cases hid : id' = id
        · subst hid
          simp [hasEv]
        · have hp' : alookup id s.reg.pending ≠ none := by
            simpa [alookup, fun h' : id' = id => hid h'] using hp
          rw [h3 hp']
          simp
  | submit id' a =>
    cases hl : alookup id' s.reg.pending with
    | none =>
      rw [sysStep_submit_miss s id' a hl]
      intro id
      obtain ⟨h1, h2, h3⟩ := h id
      refine ⟨?_, ?_, ?_⟩
      · rw [ordOK_append, h1, Bool.true_and]
        simp [ordOKAux]
      · rw [ordOK_append, h2, Bool.true_and]
        by_cases hid : id' = id <;> simp [ordOKAux, hid]
      · intro hp
        rw [hasEv_append, h3 hp]
        simp
    | some e =>
      rw [sysStep_submit_hit s id' a e hl]
      intro id
      obtain ⟨h1, h2, h3⟩ := h id
      refine ⟨?_, ?_, ?_⟩
      · rw [ordOK_append, h1, Bool.true_and]
        simp [ordOKAux]
      · rw [ordOK_append, h2, Bool.true_and]
        by_cases hid : id' = id
        · subst hid
          have hnotif : hasEv (GEvent.notified id') s.trace = true := by
            apply (h id').2.2
            rw [hl]
            exact fun hc => Option.noConfusion hc
          simp [ordOKAux, hnotif]
        · simp [ordOKAux, hid]
      · intro hp
        rw [hasEv_append]
        have hp' : alookup id s.reg.pending ≠ none := by
          intro hc
          exact hp (alookup_filter_none_of_none _ hc)
        rw [h3 hp']
        simp
  | sweep now =>
    intro id
    obtain ⟨h1, h2, h3⟩ := h id
    refine ⟨h1, h2, ?_⟩
    intro hp
    apply h3
    intro hc
    exact hp (alookup_filter_none_of_none _ hc)

theorem sysInv_run (ops : List SysOp) (s : SysState) (h : SysInv s) :
    SysInv (ops.foldl sysStep s) := by
  induction ops generalizing s with
  | nil => exact h
  | cons op rest ih => exact ih (sysStep s op) (sysInv_step s h op)

/-! ## Claims -/

/-- C1: completing a request id succeeds at most once. If `complete id a` has
succeeded on a well-formed registry, then after any further sequence of registry
operations the recorded outcome for `id` is still the first answer `a` (never
overwritten), a further `complete` for `id` is rejected with `AlreadyCompleted`,
and a further `cancel` is rejected with `NotFound` — no fulfillment attempt for
`id` ever succeeds a second time. -/
theorem registry_completion_at_most_once (r : Registry) (id : String) (a : String)
    (ops : List RegOp) (hInv : r.Inv) (hok : (r.complete id a).2 = Except.ok ()) :
    alookup id (((r.complete id a).1).applyOps ops).results = some (Outcome.answered a) ∧
    (∀ a', ((((r.complete id a).1).applyOps ops).complete id a').2 =
      Except.error CompleteError.alreadyCompleted) ∧
    (∀ reason, ((((r.complete id a).1).applyOps ops).cancel id reason).2 =
      Except.error CompleteError.notFound) := by
  cases hl : alookup id r.pending with
  | none =>
    unfold Registry.complete at hok
    rw [hl] at hok
    simp at hok
  | some e =>
    have hInv1 : (r.complete id a).1.Inv := inv_complete r id a hInv
    have hres1 : alookup id (r.complete id a).1.results = some (.answered a) := by
      rw [show (r.complete id a).1 =
          { pending := aremove id r.pending,
            results := (id, Outcome.answered a) :: r.results } from by
        unfold Registry.complete
        rw [hl]]
      simp [alookup]
    obtain ⟨hInv2, hres2⟩ := results_stable_ops ops (r.complete id a).1 hInv1 id _ hres1
    refine ⟨hres2, ?_, ?_⟩
    · intro a'
      exact (complete_after_result _ hInv2 hres2 a').1
    · intro reason
      exact (cancel_after_result _ hInv2 hres2 reason).1

/-- Witness for C1: a concrete registry holding one pending entry `req-A`; its
first completion succeeds, and after an unrelated registration the repeated
completion and a cancel are both rejected while the stored answer is intact. -/
theorem registry_completion_at_most_once_witness :
    alookup "req-A"
      ((({ pending := [("req-A", ⟨0, none⟩)], results := [] } : Registry).complete
        "req-A" "yes").1.applyOps [RegOp.register "req-B" ⟨1, none⟩]).results =
      some (Outcome.answered "yes") ∧
    (((({ pending := [("req-A", ⟨0, none⟩)], results := [] } : Registry).complete
        "req-A" "yes").1.applyOps [RegOp.register "req-B" ⟨1, none⟩]).complete
        "req-A" "again").2 = Except.error CompleteError.alreadyCompleted ∧
    (((({ pending := [("req-A", ⟨0, none⟩)], results := [] } : Registry).complete
        "req-A" "yes").1.applyOps [RegOp.register "req-B" ⟨1, none⟩]).cancel
        "req-A" "late").2 = Except.error CompleteError.notFound := by
  have h := registry_completion_at_most_once
    { pending := [("req-A", ⟨0, none⟩)], results := [] }
    "req-A" "yes" [RegOp.register "req-B" ⟨1, none⟩]
    (by decide) rfl
  exact ⟨h.1, h.2.1 "again", h.2.2 "late"⟩

/-- C3: a registered request whose deadline `d` has passed without an answer is
cancelled by the next expiry sweep: the entry leaves the pending table, the
suspended caller observes the wire reply `status:"cancelled", reason:"expired"`,
and no later sequence of operations — in particular no repeated sweep — ever
changes that recorded outcome or cancels the entry a second time. -/
theorem deadline_expiry_cancels_once (r : Registry) (id : String) (e : RegEntry)
    (d now : Nat) (hInv : r.Inv) (hpend : alookup id r.pending = some e)
    (hd : e.deadline = some d) (hlt : d < now) :
    alookup id (r.expireOlderThan now).pending = none ∧
    replyFor (r.expireOlderThan now) id =
      some [("status", "cancelled"), ("reason", "expired")] ∧
    (∀ ops : List RegOp,
      alookup id ((r.expireOlderThan now).applyOps ops).results =
        some (Outcome.cancelled "expired")) := by
  have hexp : e.isExpired now = true := by
    simp [RegEntry.isExpired, hd, hlt]
  have hp : (keys r.pending).Nodup := (inv_parts hInv).1
  have hresr : alookup id (r.expireOlderThan now).results =
      some (Outcome.cancelled "expired") := by
    unfold Registry.expireOlderThan
    simp only []
    have hfs : alookup id (r.pending.filter (fun p => p.2.isExpired now)) = some e :=
      alookup_filter_some _ hpend hexp
    have hmapped : alookup id ((r.pending.filter (fun p => p.2.isExpired now)).map
        (fun p => (p.1, Outcome.cancelled "expired"))) =
        some (Outcome.cancelled "expired") := by
      rw [alookup_map_const, hfs]
      rfl
    exact alookup_append_left r.results hmapped
  refine ⟨?_, ?_, ?_⟩
  · unfold Registry.expireOlderThan
    simp only []
    apply alookup_filter_none _ hp hpend
    simp [hexp]
  · unfold replyFor
    rw [hresr]
    rfl
  · intro ops
    exact (results_stable_ops ops _ (inv_expire r now hInv) id _ hresr).2

/-- Witness for C3: entry `req-B` with deadline 50 and no answer; the sweep at
time 51 cancels it with reason `expired`, and a second sweep leaves the outcome
untouched. -/
theorem deadline_expiry_cancels_once_witness :
    alookup "req-B"
      (({ pending := [("req-B", ⟨0, some 50⟩)], results := [] } : Registry).expireOlderThan
        51).pending = none ∧
    replyFor (({ pending := [("req-B", ⟨0, some 50⟩)], results := [] } :
        Registry).expireOlderThan 51) "req-B" =
      some [("status", "cancelled"), ("reason", "expired")] ∧
    alookup "req-B"
      ((({ pending := [("req-B", ⟨0, some 50⟩)], results := [] } :
        Registry).expireOlderThan 51).applyOps
        [RegOp.expire 99]).results = some (Outcome.cancelled "expired") := by
  have h := deadline_expiry_cancels_once
    { pending := [("req-B", ⟨0, some 50⟩)], results := [] }
    "req-B" ⟨0, some 50⟩ 50 51
    (by decide) (by decide) (by decide) (by decide)
  exact ⟨h.1, h.2.1, h.2.2 [RegOp.expire 99]⟩

/-- C6: an unreachable gateway maps to the `bridgeUnavailable` tool outcome (the
mapping is total, so the call returns rather than hangs), and that outcome is a
different constructor from every cancellation outcome and every answer: the
protocol layer can always distinguish a bridge failure from a human decline. -/
theorem bridge_unavailable_distinct :
    dispatchToolCall none = ToolOutcome.bridgeUnavailable ∧
    (∀ reason, dispatchToolCall (some (GatewayReply.cancelledR reason)) =
      ToolOutcome.cancelledOutcome reason) ∧
    (∀ reason, ToolOutcome.bridgeUnavailable ≠ ToolOutcome.cancelledOutcome reason) ∧
    (∀ a, ToolOutcome.bridgeUnavailable ≠ ToolOutcome.answer a) := by
  refine ⟨rfl, fun _ => rfl, fun reason h => ?_, fun a h => ?_⟩ <;> exact
    ToolOutcome.noConfusion h

/-- C7: in every reachable gateway trace, the `registered` event of an id
strictly precedes its `notified` event, the `notified` event strictly precedes
every successful `submitted` event for that id, and completing an id with no
registry entry can never succeed. -/
theorem request_lifecycle_ordering (ops : List SysOp) (id : String) :
    ordOK (.registered id) (.notified id) (sysRun ops).trace = true ∧
    ordOK (.notified id) (.submitted id true) (sysRun ops).trace = true ∧
    (∀ a, alookup id (sysRun ops).reg.pending = none →
      ((sysRun ops).reg.complete id a).2 ≠ Except.ok ()) := by
  have h := sysInv_run ops sysInit sysInv_init id
  refine ⟨h.1, h.2.1, ?_⟩
  intro a hnone
  unfold Registry.complete
  rw [hnone]
  intro hc
  exact Except.noConfusion hc

/-- Witness for C7: a concrete run — register and notify `q1`, answer it — whose
trace satisfies both orderings, and a second completion of `q1` (now absent from
the pending table) cannot succeed. -/
theorem request_lifecycle_ordering_witness :
    ordOK (.registered "q1") (.notified "q1")
      (sysRun [SysOp.inbound "q1" { createdAt := 0, deadline := none },
        SysOp.submit "q1" "hi"]).trace = true ∧
    ordOK (.notified "q1") (.submitted "q1" true)
      (sysRun [SysOp.inbound "q1" { createdAt := 0, deadline := none },
        SysOp.submit "q1" "hi"]).trace = true ∧
    ((sysRun [SysOp.inbound "q1" { createdAt := 0, deadline := none },
        SysOp.submit "q1" "hi"]).reg.complete "q1" "again").2 ≠ Except.ok () := by
  have h := request_lifecycle_ordering
    [SysOp.inbound "q1" { createdAt := 0, deadline := none }, SysOp.submit "q1" "hi"] "q1"
  exact ⟨h.1, h.2.1, h.2.2 "again" (by decide)⟩

/-- C9: in daemon mode (the held request carries a truthy id), both the response
handler and the cancel handler leave the popup cleared — `showMcpPopup` false and
`mcpRequest` null — whether the underlying `handle_mcp_popup_response` invoke
succeeded or threw. -/
theorem daemon_handlers_always_clear_popup (s : PopupState) (resp : PopupResponse)
    (cnt : Nat) (o : InvokeOutcome)
    (h : jsStrTruthy (s.mcpRequest.bind (fun r => r.id)) = true) :
    (handleMcpResponseWithMemoryAnalysis s resp cnt o).state = clearedPopup ∧
    (handleMcpCancelWithModeCheck s o).state = clearedPopup := by
  cases o <;>
    simp [handleMcpResponseWithMemoryAnalysis, handleMcpCancelWithModeCheck,
      handleDaemonPopupResponse, h]

/-- Witness for C9: a concrete daemon-mode popup state; both handlers clear the
popup even when the invoke throws. -/
theorem daemon_handlers_always_clear_popup_witness :
    (handleMcpResponseWithMemoryAnalysis
      { showMcpPopup := true, mcpRequest := some ⟨some "req-1", some "q", []⟩ }
      (cancelResponse "req-1") 0 InvokeOutcome.err).state = clearedPopup ∧
    (handleMcpCancelWithModeCheck
      { showMcpPopup := true, mcpRequest := some ⟨some "req-1", some "q", []⟩ }
      InvokeOutcome.err).state = clearedPopup :=
  daemon_handlers_always_clear_popup
    { showMcpPopup := true, mcpRequest := some ⟨some "req-1", some "q", []⟩ }
    (cancelResponse "req-1") 0 InvokeOutcome.err (by decide)

/-- C5 counterexample: a failed daemon-mode submission (the invoke rejects, as it
does when the request already expired) produces no human-visible message at all —
the handler only logs to the console and clears the popup — so no "too late"
indication is presented, contradicting the claim. -/
theorem failed_submit_no_failure_message :
    jsStrTruthy ((some (⟨some "req-1", some "q", []⟩ : McpRequestData)).bind
      (fun r => r.id)) = true ∧
    (handleMcpResponseWithMemoryAnalysis
      { showMcpPopup := true, mcpRequest := some ⟨some "req-1", some "q", []⟩ }
      (buildSubmitResponse (some ⟨some "req-1", some "q", []⟩) ⟨"yes", [], []⟩)
      0 InvokeOutcome.err).userMessages = [] := by
  exact ⟨rfl, rfl⟩

/-- C5 amended: on a failed daemon-mode submission the handler never reports or
implies success — the human-visible messages are exactly the same as on a
successful submission (only the unrelated memory hint, no success and no failure
indication) — and the popup state is cleared; but no explicit "too late" failure
message is presented either. -/
theorem failed_submit_silent (s : PopupState) (resp : PopupResponse) (cnt : Nat)
    (h : jsStrTruthy (s.mcpRequest.bind (fun r => r.id)) = true) :
    (handleMcpResponseWithMemoryAnalysis s resp cnt InvokeOutcome.err).userMessages =
      (handleMcpResponseWithMemoryAnalysis s resp cnt InvokeOutcome.ok).userMessages ∧
    (handleMcpResponseWithMemoryAnalysis s resp cnt InvokeOutcome.err).state =
      clearedPopup := by
  simp [handleMcpResponseWithMemoryAnalysis, handleDaemonPopupResponse, h]

/-- Witness for C5 (amended): concrete daemon-mode state; the failed submission
shows the same (empty) message list as the successful one and clears the popup. -/
theorem failed_submit_silent_witness :
    (handleMcpResponseWithMemoryAnalysis
      { showMcpPopup := true, mcpRequest := some ⟨some "req-2", some "q", []⟩ }
      (cancelResponse "req-2") 3 InvokeOutcome.err).userMessages =
      (handleMcpResponseWithMemoryAnalysis
        { showMcpPopup := true, mcpRequest := some ⟨some "req-2", some "q", []⟩ }
        (cancelResponse "req-2") 3 InvokeOutcome.ok).userMessages ∧
    (handleMcpResponseWithMemoryAnalysis
      { showMcpPopup := true, mcpRequest := some ⟨some "req-2", some "q", []⟩ }
      (cancelResponse "req-2") 3 InvokeOutcome.err).state = clearedPopup :=
  failed_submit_silent
    { showMcpPopup := true, mcpRequest := some ⟨some "req-2", some "q", []⟩ }
    (cancelResponse "req-2") 3 (by decide)

/-- C4 counterexample: when the human closes a daemon-mode request without
answering, the cancel handler does not issue any dismiss/cancel operation — its
only command is a `handle_mcp_popup_response` submission carrying a synthetic
answer whose text is 用户取消了操作; and a registry that receives such a
submission for a pending id records an answered outcome, so the waiting caller
receives `status:"answered"`, not a `cancelled` status reply. -/
theorem cancel_path_counterexample :
    (handleMcpCancelWithModeCheck
      { showMcpPopup := true, mcpRequest := some ⟨some "req-1", some "q", []⟩ }
      InvokeOutcome.ok).commands =
      [FrontendCommand.popupResponse "req-1" (cancelResponse "req-1")] ∧
    (cancelResponse "req-1").user_input = some "用户取消了操作" ∧
    FrontendCommand.dismissRequest "req-1" ∉
      (handleMcpCancelWithModeCheck
        { showMcpPopup := true, mcpRequest := some ⟨some "req-1", some "q", []⟩ }
        InvokeOutcome.ok).commands ∧
    replyFor (({ pending := [("req-1", ⟨0, none⟩)], results := [] } : Registry).complete
      "req-1" "cancel-payload").1 "req-1" =
      some [("status", "answered"), ("answer", "cancel-payload")] ∧
    alookup "status" ((outcomeWire (Outcome.answered "cancel-payload"))) ≠
      some "cancelled" := by
  refine ⟨rfl, rfl, ?_, rfl, ?_⟩
  · decide
  · decide

/-- C4 amended: in daemon mode, closing the presentation without answering does
not forward to a registry cancel; the handler submits the synthetic answer
(text 用户取消了操作, source `popup_cancel`) through the same answer path,
addressed to the request id, it never emits a dismiss operation, and it does not
exit the app — the connection is answered, not silently dropped. -/
theorem cancel_submits_synthetic_answer (s : PopupState) (i : String) (o : InvokeOutcome)
    (h : s.mcpRequest.bind (fun r => r.id) = some i) (hi : i ≠ "") :
    (handleMcpCancelWithModeCheck s o).commands =
      [FrontendCommand.popupResponse i (cancelResponse i)] ∧
    (cancelResponse i).user_input = some "用户取消了操作" ∧
    (∀ j, FrontendCommand.dismissRequest j ∉ (handleMcpCancelWithModeCheck s o).commands) ∧
    FrontendCommand.exitApp ∉ (handleMcpCancelWithModeCheck s o).commands := by
  have ht : jsStrTruthy (some i) = true := by
    simp [jsStrTruthy, hi]
  have hcmds : (handleMcpCancelWithModeCheck s o).commands =
      [FrontendCommand.popupResponse i (cancelResponse i)] := by
    cases o <;>
      simp [handleMcpCancelWithModeCheck, handleDaemonPopupResponse, ht, h]
  refine ⟨hcmds, rfl, ?_, ?_⟩
  · intro j
    rw [hcmds]
    simp
  · rw [hcmds]
    simp

/-- Witness for C4 (amended): concrete daemon-mode state with id `req-9`. -/
theorem cancel_submits_synthetic_answer_witness :
    (handleMcpCancelWithModeCheck
      { showMcpPopup := true, mcpRequest := some ⟨some "req-9", some "q", []⟩ }
      InvokeOutcome.err).commands =
      [FrontendCommand.popupResponse "req-9" (cancelResponse "req-9")] ∧
    (cancelResponse "req-9").user_input = some "用户取消了操作" ∧
    (∀ j, FrontendCommand.dismissRequest j ∉
      (handleMcpCancelWithModeCheck
        { showMcpPopup := true, mcpRequest := some ⟨some "req-9", some "q", []⟩ }
        InvokeOutcome.err).commands) ∧
    FrontendCommand.exitApp ∉
      (handleMcpCancelWithModeCheck
        { showMcpPopup := true, mcpRequest := some ⟨some "req-9", some "q", []⟩ }
        InvokeOutcome.err).commands :=
  cancel_submits_synthetic_answer
    { showMcpPopup := true, mcpRequest := some ⟨some "req-9", some "q", []⟩ }
    "req-9" InvokeOutcome.err rfl (by decide)

/-! ## Popup submission lemmas -/

theorem buildSubmitResponse_images (request : Option McpRequestData) (f : SubmitForm) :
    (buildSubmitResponse request f).images = f.draggedImages.map buildImage := by
  simp only [buildSubmitResponse]
  split <;> split <;> rfl

theorem buildSubmitResponse_options (request : Option McpRequestData) (f : SubmitForm) :
    (buildSubmitResponse request f).selected_options = f.selectedOptions := by
  simp only [buildSubmitResponse]
  split <;> split <;> rfl

theorem handleSubmit_eq_some {request : Option McpRequestData} {submitting : Bool}
    {f : SubmitForm} {r : PopupResponse} (h : handleSubmit request submitting f = some r) :
    r = buildSubmitResponse request f := by
  unfold handleSubmit at h
  split at h
  · exact Option.noConfusion h
  · exact (Option.some.injEq _ _ ▸ h).symm

/-- C10: the popup never emits an entirely empty answer. If the trimmed text is
empty, no option is selected and no image is attached, `handleSubmit` replaces
`user_input` with the fixed default 用户确认继续; consequently every response the
popup emits has a non-empty text, a non-empty option list, or a non-empty image
list. -/
theorem popup_submit_never_empty (request : Option McpRequestData) (f : SubmitForm) :
    ((jsTrim f.userInput = "" ∧ f.selectedOptions = [] ∧ f.draggedImages = []) →
      (buildSubmitResponse request f).user_input = some "用户确认继续") ∧
    (∀ (submitting : Bool) (r : PopupResponse), handleSubmit request submitting f = some r →
      (∃ t, r.user_input = some t ∧ t ≠ "") ∨ r.selected_options ≠ [] ∨ r.images ≠ []) := by
  constructor
  · rintro ⟨h1, h2, h3⟩
    simp [buildSubmitResponse, h1, h2, h3]
  · intro submitting r hr
    rw [handleSubmit_eq_some hr]
    by_cases htrim : jsTrim f.userInput = ""
    · by_cases hopts : f.selectedOptions = []
      · by_cases himgs : f.draggedImages = []
        · refine Or.inl ⟨"用户确认继续", ?_, by decide⟩
          simp [buildSubmitResponse, htrim, hopts, himgs]
        · refine Or.inr (Or.inr ?_)
          rw [buildSubmitResponse_images]
          simpa using himgs
      · refine Or.inr (Or.inl ?_)
        rw [buildSubmitResponse_options]
        exact hopts
    · refine Or.inl ⟨jsTrim f.userInput, ?_, htrim⟩
      simp [buildSubmitResponse, htrim]

/-- Witness for C10: the empty form gets the default text; a whitespace-padded
text form emits a response with non-empty content. -/
theorem popup_submit_never_empty_witness :
    (buildSubmitResponse none ⟨"", [], []⟩).user_input = some "用户确认继续" ∧
    ((∃ t, (buildSubmitResponse none ⟨" ok ", [], []⟩).user_input = some t ∧ t ≠ "") ∨
      (buildSubmitResponse none ⟨" ok ", [], []⟩).selected_options ≠ [] ∨
      (buildSubmitResponse none ⟨" ok ", [], []⟩).images ≠ []) := by
  constructor
  · exact (popup_submit_never_empty none ⟨"", [], []⟩).1 (by decide)
  · exact (popup_submit_never_empty none ⟨" ok ", [], []⟩).2 false
      (buildSubmitResponse none ⟨" ok ", [], []⟩) (by decide)

/-- C8 counterexample: for a JPEG attachment the popup emits an image object
whose payload key is `data` — there is no `data_base64` field — and whose
`media_type` is the hard-coded string `image/png`, not the attachment's declared
media type `image/jpeg`; the claimed wire shape does not hold. -/
theorem attachment_wire_shape_counterexample :
    dataUrlMediaType "data:image/jpeg;base64,QUJD" = "image/jpeg" ∧
    alookup "data_base64" (buildImage "data:image/jpeg;base64,QUJD") = none ∧
    alookup "media_type" (buildImage "data:image/jpeg;base64,QUJD") =
      some (some "image/png") ∧
    alookup "media_type" (buildImage "data:image/jpeg;base64,QUJD") ≠
      some (some (dataUrlMediaType "data:image/jpeg;base64,QUJD")) ∧
    alookup "data" (buildImage "data:image/jpeg;base64,QUJD") = some (some "QUJD") := by
  refine ⟨by decide, rfl, rfl, by decide, by decide⟩

/-- C8 amended: every image object in an emitted popup response has exactly the
keys `data`, `media_type` and `filename`, with `media_type` always the constant
`image/png` and `filename` always null; the payload sits under `data`, not
`data_base64`, and the declared media type of the data URL is ignored. -/
theorem submitted_attachments_shape (request : Option McpRequestData) (submitting : Bool)
    (f : SubmitForm) (r : PopupResponse) (h : handleSubmit request submitting f = some r) :
    ∀ img ∈ r.images,
      keys img = ["data", "media_type", "filename"] ∧
      alookup "media_type" img = some (some "image/png") ∧
      alookup "filename" img = some none := by
  rw [handleSubmit_eq_some h, buildSubmitResponse_images]
  intro img hm
  obtain ⟨d, hd, rfl⟩ := List.mem_map.mp hm
  exact ⟨rfl, rfl, rfl⟩

/-- Witness for C8 (amended): a submission carrying one PNG data URL; its single
image object has the three keys with `media_type` `image/png`. -/
theorem submitted_attachments_shape_witness :
    keys (buildImage "data:image/png;base64,AAAA") = ["data", "media_type", "filename"] ∧
    alookup "media_type" (buildImage "data:image/png;base64,AAAA") =
      some (some "image/png") ∧
    alookup "filename" (buildImage "data:image/png;base64,AAAA") = some none :=
  submitted_attachments_shape none false ⟨"", [], ["data:image/png;base64,AAAA"]⟩
    (buildSubmitResponse none ⟨"", [], ["data:image/png;base64,AAAA"]⟩) (by decide)
    (buildImage "data:image/png;base64,AAAA") (by decide)

/-- C2 counterexample: the interactive surface holds a single request slot. With
requests `req-A` and `req-B` outstanding concurrently (both arrive before either
is answered), answering twice yields exactly one answer, addressed to `req-B`;
`req-A` is never answered — the surface loses it rather than queueing it, so N
concurrent requests do not yield N distinct answers. -/
theorem concurrent_requests_conflated :
    answeredIds (surfaceRun clearedPopup
      [SurfaceEvent.arrive ⟨some "req-A", some "qA", []⟩,
       SurfaceEvent.arrive ⟨some "req-B", some "qB", []⟩,
       SurfaceEvent.submit ⟨"yes", [], []⟩ 0 InvokeOutcome.ok,
       SurfaceEvent.submit ⟨"yes", [], []⟩ 0 InvokeOutcome.ok]).2 = ["req-B"] ∧
    "req-A" ∉ answeredIds (surfaceRun clearedPopup
      [SurfaceEvent.arrive ⟨some "req-A", some "qA", []⟩,
       SurfaceEvent.arrive ⟨some "req-B", some "qB", []⟩,
       SurfaceEvent.submit ⟨"yes", [], []⟩ 0 InvokeOutcome.ok,
       SurfaceEvent.submit ⟨"yes", [], []⟩ 0 InvokeOutcome.ok]).2 ∧
    ("req-A" : String) ≠ "req-B" := by
  refine ⟨by decide, by decide, by decide⟩

/-- C2 amended: the surface keeps only the most recently arrived request — a
concurrent arrival overwrites the held request — and a subsequent submission
emits exactly one answer, addressed by id to that latest request; the earlier
request receives nothing from this interaction. -/
theorem surface_holds_single_request (s : PopupState) (a b : McpRequestData) (i : String)
    (f : SubmitForm) (cnt : Nat) (o : InvokeOutcome)
    (hid : b.id = some i) (hi : i ≠ "") (hcs : canSubmit (some b) f = true) :
    (surfaceRun s [SurfaceEvent.arrive a, SurfaceEvent.arrive b,
        SurfaceEvent.submit f cnt o]).2 =
      [FrontendCommand.popupResponse i (buildSubmitResponse (some b) f)] ∧
    (onPopupRequest (onPopupRequest s a) b).mcpRequest = some b := by
  refine ⟨?_, rfl⟩
  have ht : jsStrTruthy (some i) = true := by
    simp [jsStrTruthy, hi]
  cases o <;>
    simp [surfaceRun, surfaceStep, onPopupRequest, handleSubmit, hcs,
      handleMcpResponseWithMemoryAnalysis, handleDaemonPopupResponse, hid, ht]

/-- Witness for C2 (amended): requests `req-A` then `req-B` arrive, the human
submits text `yes`; the only emitted answer is addressed to `req-B`. -/
theorem surface_holds_single_request_witness :
    (surfaceRun clearedPopup
      [SurfaceEvent.arrive ⟨some "req-A", some "qA", []⟩,
       SurfaceEvent.arrive ⟨some "req-B", some "qB", []⟩,
       SurfaceEvent.submit ⟨"yes", [], []⟩ 0 InvokeOutcome.ok]).2 =
      [FrontendCommand.popupResponse "req-B"
        (buildSubmitResponse (some ⟨some "req-B", some "qB", []⟩) ⟨"yes", [], []⟩)] ∧
    (onPopupRequest (onPopupRequest clearedPopup ⟨some "req-A", some "qA", []⟩)
      ⟨some "req-B", some "qB", []⟩).mcpRequest = some ⟨some "req-B", some "qB", []⟩ :=
  surface_holds_single_request clearedPopup ⟨some "req-A", some "qA", []⟩
    ⟨some "req-B", some "qB", []⟩ "req-B" ⟨"yes", [], []⟩ 0 InvokeOutcome.ok
    rfl (by decide) (by decide)

end NeurospecMCP
